import Mathlib

/-!
Verification of the Car Business Analytics dashboard
(`database.py`, `import_excel.py`, `app.py`) against its specification.

The embedding models Python ints as `ℤ`, Python floats / pandas numeric
cells as `ℚ` (with `Option ℚ` for possibly-missing (NaN) cells), Python
`int(...)` conversion as truncation toward zero, the SQL tables as lists
of records with date-unique rows, and a committed transaction as the
returned store (rollback returns the pre-call store).
-/

namespace CarBiz

/-- Python `int(x)` on a float/rational: truncation toward zero
(`Int.tdiv` is Lean's truncating division and the denominator is
positive). -/
def pytrunc (q : ℚ) : ℤ :=
  q.num.tdiv (q.den : ℤ)

instance {ε α : Type} [DecidableEq ε] [DecidableEq α] :
    DecidableEq (Except ε α) := fun a b =>
  match a, b with
  | .ok x, .ok y =>
    if h : x = y then .isTrue (by rw [h]) else .isFalse (by simpa using h)
  | .ok _, .error _ => .isFalse (by simp)
  | .error _, .ok _ => .isFalse (by simp)
  | .error e, .error f =>
    if h : e = f then .isTrue (by rw [h]) else .isFalse (by simpa using h)

/-- A calendar date, the result type of `normalize_date`
(Python `datetime.date`). -/
structure Date where
  year : ℕ
  month : ℕ
  day : ℕ
deriving DecidableEq, Repr

/-- Gregorian leap-year rule used by `datetime.date` validity. -/
def isLeap (y : ℕ) : Bool :=
  (y % 4 == 0 && y % 100 != 0) || y % 400 == 0

/-- Days in a month, as enforced by the `datetime.date` constructor. -/
def daysInMonth (y m : ℕ) : ℕ :=
  if m == 2 then (if isLeap y then 29 else 28)
  else if m == 4 || m == 6 || m == 9 || m == 11 then 30
  else 31

/-- Validity check performed by the `datetime` constructor
(`MINYEAR = 1`, `MAXYEAR = 9999`, month 1..12, day within the month). -/
def validDate (y m d : ℕ) : Bool :=
  1 ≤ y && y ≤ 9999 && 1 ≤ m && m ≤ 12 && 1 ≤ d && d ≤ daysInMonth y m

/-- Character of a decimal digit. -/
def digitChar (k : ℕ) : Char := Char.ofNat (48 + k)

/-- Decimal value of a list of digit characters (most significant first). -/
def valOf (cs : List Char) : ℕ :=
  cs.foldl (fun a c => a * 10 + (c.toNat - 48)) 0

/-- Split a character list at every `'-'`, like the regex alternation that
`strptime` compiles `"%Y-%m-%d"` into. -/
def splitDash : List Char → List (List Char)
  | [] => [[]]
  | c :: cs =>
    if c = '-' then [] :: splitDash cs
    else
      match splitDash cs with
      | [] => [[c]]
      | g :: gs => (c :: g) :: gs

/-- A digit component of one or two digits: the strings CPython's
`strptime` month/day patterns can consume (their regexes are
value-constrained, but combined with the `date()` validation performed
afterwards the accepted strings are exactly "1-2 digits whose value is
a valid month/day", which is how the model splits the check). -/
def digitsUpTo (w : ℕ) (cs : List Char) : Bool :=
  cs.all (·.isDigit) && 1 ≤ cs.length && cs.length ≤ w

/-- A digit component of exactly `w` digits: CPython's `strptime`
compiles `%Y` to `\d\d\d\d`, four digits exactly. -/
def digitsExact (w : ℕ) (cs : List Char) : Bool :=
  cs.all (·.isDigit) && cs.length == w

/-- The possible dynamic types of the `raw_date` argument of
`normalize_date`: a Python `str`, a `datetime` (carrying its calendar
date), a plain `date`, or any other value. -/
inductive RawDate where
  | str (s : String)
  | dtime (d : Date)
  | pdate (d : Date)
  | other
deriving DecidableEq, Repr

/-- Model of `import_excel.normalize_date`: a string goes through
`datetime.strptime(raw, "%Y-%m-%d").date()`, a `datetime` through
`.date()`, a `date` is returned as is, anything else raises
`ValueError`. -/
def normalize_date : RawDate → Except String Date
  | .str s =>
    match splitDash s.data with
    | [a, b, c] =>
      if digitsExact 4 a && digitsUpTo 2 b && digitsUpTo 2 c then
        let y := valOf a
        let m := valOf b
        let d := valOf c
        if validDate y m d then .ok ⟨y, m, d⟩
        else .error "time data does not match format"
      else .error "time data does not match format"
    | _ => .error "time data does not match format"
  | .dtime d => .ok d
  | .pdate d => .ok d
  | .other => .error "Invalid date format"

/-- Whether an `Except` result is a success. -/
def exceptOk {ε α : Type} : Except ε α → Bool
  | .ok _ => true
  | .error _ => false

/-- Zero-padded two-digit rendering of `n < 100`. -/
def pad2 (n : ℕ) : List Char := [digitChar (n / 10 % 10), digitChar (n % 10)]

/-- Zero-padded four-digit rendering of `n < 10000`. -/
def pad4 (n : ℕ) : List Char :=
  [digitChar (n / 1000 % 10), digitChar (n / 100 % 10),
   digitChar (n / 10 % 10), digitChar (n % 10)]

/-- The canonical `YYYY-MM-DD` rendering of a date. -/
def renderYMD (y m d : ℕ) : String :=
  ⟨pad4 y ++ '-' :: pad2 m ++ '-' :: pad2 d⟩

/-! ## Record store (`database.py`)

A table is a list of rows; the `date` column carries a uniqueness
constraint, so a well-formed store has pairwise distinct dates. -/

/-- Row of the `daily_records` table.  `Integer` columns are `ℤ`,
`Float` columns `ℚ`, nullable columns `Option`. -/
structure DailyRecord where
  date : Date
  ride_count : ℤ
  earnings : ℤ
  cng_expenses : ℤ
  driver_pass_subscription : ℚ
  indrive_topup : ℚ
  odometer_start : Option ℚ
  odometer_end : Option ℚ
  daily_net : ℤ
deriving DecidableEq, Repr

/-- Row of the `other_expenses` table. -/
structure OtherExpense where
  date : Date
  expenses : ℚ
  months : Option String
  car_emi : ℚ
  pg_rent : ℚ
deriving DecidableEq, Repr

/-- Insert-or-replace by date, the shared shape of the four upsert
loops in `app.py` and `import_excel.py`: query the row whose `date`
equals `d`; if one exists overwrite all its fields (`r` carries the
same date), otherwise add a new row. -/
def upsertRow {α : Type} (key : α → Date) (db : List α) (d : Date) (r : α) :
    List α :=
  if db.any (fun x => decide (key x = d)) then
    db.map (fun x => if key x = d then r else x)
  else db ++ [r]

/-! ## Upsert Writer (`app.py`) -/

/-- The `DailyRecord` values assigned by `add_record` in both of its
branches: `daily_net = int(earnings - cng_expenses - driver_pass -
indrive)` and an odometer value is kept only when strictly positive. -/
def mkDailyRecord (d : Date) (rc e c : ℤ) (s t os oe : ℚ) : DailyRecord :=
  { date := d
    ride_count := rc
    earnings := e
    cng_expenses := c
    driver_pass_subscription := s
    indrive_topup := t
    odometer_start := if 0 < os then some os else none
    odometer_end := if 0 < oe then some oe else none
    daily_net := pytrunc ((e : ℚ) - (c : ℚ) - s - t) }

/-- Model of `app.add_record`: upsert of the freshly computed record; the
commit returns the new store (on failure the backend rolls back, which
the claims do not exercise). -/
def add_record (db : List DailyRecord) (d : Date) (rc e c : ℤ)
    (s t os oe : ℚ) : List DailyRecord :=
  upsertRow (·.date) db d (mkDailyRecord d rc e c s t os oe)

/-- Model of `app.add_other_expense`: upsert of an `OtherExpense` row; every
field is stored exactly as supplied, with no all-zero filtering. -/
def add_other_expense (db : List OtherExpense) (d : Date)
    (car_emi pg_rent expenses : ℚ) (months : Option String) :
    List OtherExpense :=
  upsertRow (·.date) db d
    { date := d, expenses := expenses, months := months,
      car_emi := car_emi, pg_rent := pg_rent }

/-! ## Bulk Importer (`import_excel.py`)

A sheet row after column renaming; a pandas cell that is NaN is
`none`. -/

/-- Renamed daily-record sheet row, before `fillna`. -/
structure RawDailyRow where
  date : RawDate
  ride_count : Option ℚ
  earnings : Option ℚ
  cng_expenses : Option ℚ
  driver_pass_subscription : Option ℚ
  indrive_topup : Option ℚ
  odometer_start : Option ℚ
  odometer_end : Option ℚ
deriving DecidableEq, Repr

/-- Daily-record sheet row after the `daily_net` assignment and
`df.fillna(0)`. -/
structure FilledDailyRow where
  date : RawDate
  ride_count : ℚ
  earnings : ℚ
  cng_expenses : ℚ
  driver_pass_subscription : ℚ
  indrive_topup : ℚ
  odometer_start : ℚ
  odometer_end : ℚ
  daily_net : ℚ
deriving DecidableEq, Repr

/-- Per-row effect of
`df['daily_net'] = df['earnings'] - df['cng_expenses'] -
df['driver_pass_subscription'].fillna(0) - df['indrive_topup'].fillna(0)`
followed by `df = df.fillna(0)`.  NaN propagates through the
subtraction from a missing `earnings` or `cng_expenses` cell, and the
final `fillna` then replaces the NaN `daily_net` by `0`. -/
def processDailyRow (r : RawDailyRow) : FilledDailyRow :=
  let dn : Option ℚ :=
    match r.earnings, r.cng_expenses with
    | some e, some c =>
      some (e - c - r.driver_pass_subscription.getD 0 - r.indrive_topup.getD 0)
    | _, _ => none
  { date := r.date
    ride_count := r.ride_count.getD 0
    earnings := r.earnings.getD 0
    cng_expenses := r.cng_expenses.getD 0
    driver_pass_subscription := r.driver_pass_subscription.getD 0
    indrive_topup := r.indrive_topup.getD 0
    odometer_start := r.odometer_start.getD 0
    odometer_end := r.odometer_end.getD 0
    daily_net := dn.getD 0 }

/-- The `DailyRecord` built by the import upsert loop:
`int(...)` truncates the integer columns, and a zero (falsy) odometer
cell is stored as NULL. -/
def mkImportDaily (r : FilledDailyRow) (dt : Date) : DailyRecord :=
  { date := dt
    ride_count := pytrunc r.ride_count
    earnings := pytrunc r.earnings
    cng_expenses := pytrunc r.cng_expenses
    driver_pass_subscription := r.driver_pass_subscription
    indrive_topup := r.indrive_topup
    odometer_start := if r.odometer_start = 0 then none else some r.odometer_start
    odometer_end := if r.odometer_end = 0 then none else some r.odometer_end
    daily_net := pytrunc r.daily_net }

/-- Renamed other-expenses sheet row, before `fillna`. -/
structure RawExpenseRow where
  date : RawDate
  expenses : Option ℚ
  months : Option String
  car_emi : Option ℚ
  pg_rent : Option ℚ
deriving DecidableEq, Repr

/-- Other-expenses sheet row after
`df[['expenses','car_emi','pg_rent']].fillna(0)` (the `months` column
is not filled). -/
structure FilledExpenseRow where
  date : RawDate
  expenses : ℚ
  months : Option String
  car_emi : ℚ
  pg_rent : ℚ
deriving DecidableEq, Repr

/-- The selective `fillna(0)` on the three numeric columns. -/
def fillExpenseRow (r : RawExpenseRow) : FilledExpenseRow :=
  { date := r.date
    expenses := r.expenses.getD 0
    months := r.months
    car_emi := r.car_emi.getD 0
    pg_rent := r.pg_rent.getD 0 }

/-- Sheet preprocessing of `import_other_expenses`: fill the numeric
columns, then keep only the rows where at least one of `expenses`,
`car_emi`, `pg_rent` is nonzero. -/
def processExpenseSheet (rows : List RawExpenseRow) : List FilledExpenseRow :=
  (rows.map fillExpenseRow).filter
    (fun r => decide (r.expenses ≠ 0 ∨ r.car_emi ≠ 0 ∨ r.pg_rent ≠ 0))

/-- The `OtherExpense` built by the import upsert loop. -/
def mkImportExpense (r : FilledExpenseRow) (dt : Date) : OtherExpense :=
  { date := dt, expenses := r.expenses, months := r.months,
    car_emi := r.car_emi, pg_rent := r.pg_rent }

/-- The shared `try/commit/except rollback` loop of both importers:
`db0` is the pre-call store (restored by `session.rollback()`), `sess`
the pending session state, `a`/`u` the added/updated counters.  A date
the `normalize_date` call rejects aborts the whole batch, so the final
store is the untouched `db0`.  The duplicate lookup runs under
`session.no_autoflush`, so it sees only the flushed store `db0`:
pending `session.add` inserts from earlier rows of the same batch are
invisible to it.  An existing date mutates the identity-mapped row (a
repeat update overwrites the same row again); a date absent from `db0`
appends a pending insert.  The final `session.commit()` then enforces
the UNIQUE constraint on `date`: if the committed table would contain
a duplicate date (two pending inserts for the same fresh date), the
commit raises an integrity error and rolls back to `db0`; otherwise it
returns the session state with the `(added, updated)` counts. -/
def runImport {ρ σ : Type} (dateOf : ρ → RawDate) (key : σ → Date)
    (mk : ρ → Date → σ) (db0 : List σ) :
    List ρ → List σ → ℕ → ℕ → List σ × Except String (ℕ × ℕ)
  | [], sess, a, u =>
    if (sess.map key).Nodup then (sess, .ok (a, u))
    else (db0, .error "UNIQUE constraint failed")
  | r :: rest, sess, a, u =>
    match normalize_date (dateOf r) with
    | .error e => (db0, .error e)
    | .ok dt =>
      if db0.any (fun x => decide (key x = dt)) then
        runImport dateOf key mk db0 rest
          (sess.map (fun x => if key x = dt then mk r dt else x)) a (u + 1)
      else
        runImport dateOf key mk db0 rest (sess ++ [mk r dt]) (a + 1) u

/-- Model of `import_excel.import_daily_records`, from the concatenated batch of
processed sheet rows onward: returns the post-call store and either the
`(added, updated)` counts or the propagated error. -/
def import_daily_records (rows : List FilledDailyRow)
    (db : List DailyRecord) :
    List DailyRecord × Except String (ℕ × ℕ) :=
  runImport (·.date) (·.date) mkImportDaily db rows db 0 0

/-- Model of `import_excel.import_other_expenses`, from the concatenated batch
of processed (filtered) sheet rows onward. -/
def import_other_expenses (rows : List FilledExpenseRow)
    (db : List OtherExpense) :
    List OtherExpense × Except String (ℕ × ℕ) :=
  runImport (·.date) (·.date) mkImportExpense db rows db 0 0

/-! ## Aggregation Engine (`app.py`) -/

/-- Total `filtered_df["earnings"].sum()`. -/
def totalEarnings (rows : List DailyRecord) : ℤ :=
  (rows.map (·.earnings)).sum

/-- Total `filtered_df["ride_count"].sum()`. -/
def totalRides (rows : List DailyRecord) : ℤ :=
  (rows.map (·.ride_count)).sum

/-- Average `avg_per_ride = total_earnings / total_rides if total_rides > 0
else 0`. -/
def avg_per_ride (rows : List DailyRecord) : ℚ :=
  if 0 < totalRides rows then
    (totalEarnings rows : ℚ) / (totalRides rows : ℚ)
  else 0

/-- Month bucket `pd.to_datetime(...).dt.to_period('M')`: the (year, month) bucket
of a date. -/
def monthOf (d : Date) : ℕ × ℕ := (d.year, d.month)

/-- The daily rows grouped into one month bucket. -/
def rowsIn (rows : List DailyRecord) (ym : ℕ × ℕ) : List DailyRecord :=
  rows.filter (fun r => decide (monthOf r.date = ym))

/-- The other-expense rows grouped into one month bucket. -/
def expsIn (exps : List OtherExpense) (ym : ℕ × ℕ) : List OtherExpense :=
  exps.filter (fun x => decide (monthOf x.date = ym))

/-- Monthly `'earnings': 'sum'`. -/
def monthEarnings (rows : List DailyRecord) (ym : ℕ × ℕ) : ℤ :=
  ((rowsIn rows ym).map (·.earnings)).sum

/-- Monthly `'daily_net': 'sum'`. -/
def monthDailyNet (rows : List DailyRecord) (ym : ℕ × ℕ) : ℤ :=
  ((rowsIn rows ym).map (·.daily_net)).sum

/-- Monthly `total_expenses = cng_expenses + driver_pass_subscription
+ indrive_topup` (each column summed, then added). -/
def monthOps (rows : List DailyRecord) (ym : ℕ × ℕ) : ℚ :=
  ((rowsIn rows ym).map (fun r => (r.cng_expenses : ℚ))).sum +
    ((rowsIn rows ym).map (·.driver_pass_subscription)).sum +
    ((rowsIn rows ym).map (·.indrive_topup)).sum

/-- Monthly `'car_emi': 'sum'` over the full (unfiltered)
other-expenses table; a month absent from that table sums to `0`,
exactly what the left merge plus `fillna(0)` produces. -/
def monthEmi (exps : List OtherExpense) (ym : ℕ × ℕ) : ℚ :=
  ((expsIn exps ym).map (·.car_emi)).sum

/-- Monthly `'pg_rent': 'sum'`. -/
def monthRent (exps : List OtherExpense) (ym : ℕ × ℕ) : ℚ :=
  ((expsIn exps ym).map (·.pg_rent)).sum

/-- Monthly `'expenses': 'sum'`. -/
def monthMisc (exps : List OtherExpense) (ym : ℕ × ℕ) : ℚ :=
  ((expsIn exps ym).map (·.expenses)).sum

/-- The monthly `net_profit` column: the branch
`if not other_expenses_df.empty` is on the whole table, not on the
month; in the nonempty branch
`net_profit = earnings - (total_expenses + car_emi + pg_rent +
expenses)`, in the empty branch `net_profit = daily_net`. -/
def net_profit (rows : List DailyRecord) (exps : List OtherExpense)
    (ym : ℕ × ℕ) : ℚ :=
  if exps.isEmpty then (monthDailyNet rows ym : ℚ)
  else
    (monthEarnings rows ym : ℚ) -
      (monthOps rows ym + monthEmi exps ym + monthRent exps ym +
        monthMisc exps ym)

/-- A pandas float64 cell: a finite value, an infinity, or NaN.
The dashboard only ever divides finite cells, so only those cases
arise. -/
inductive PFloat where
  | val (q : ℚ)
  | pinf
  | ninf
  | nan
deriving DecidableEq, Repr

/-- IEEE-754 division of two finite cells, as numpy performs it on
the int64 columns: `0/0` is NaN, `x/0` for `x ≠ 0` is a signed
infinity, otherwise exact. -/
def pdiv : PFloat → PFloat → PFloat
  | .val a, .val b =>
    if b = 0 then
      (if a = 0 then .nan else if 0 < a then .pinf else .ninf)
    else .val (a / b)
  | _, _ => .nan

/-- Multiplication by the positive literal `100`. -/
def pmul100 : PFloat → PFloat
  | .val a => .val (a * ((100 : ℤ) : ℚ))
  | .pinf => .pinf
  | .ninf => .ninf
  | .nan => .nan

/-- Model of `Series.fillna(0)` on one cell: replaces NaN only; infinities
pass through. -/
def fillna0 : PFloat → PFloat
  | .nan => .val 0
  | x => x

/-- Per-row value of
`(profit_df["daily_net"] / profit_df["earnings"] * 100).fillna(0)`. -/
def profit_margin (dn e : ℤ) : PFloat :=
  fillna0 (pmul100 (pdiv (.val (dn : ℚ)) (.val (e : ℚ))))

/-! ## Helper lemmas: digit rendering and `splitDash` -/

lemma digitChar_isDigit {k : ℕ} (h : k < 10) : (digitChar k).isDigit = true := by
  interval_cases k <;> decide

lemma digitChar_ne_dash {k : ℕ} (h : k < 10) : digitChar k ≠ '-' := by
  interval_cases k <;> decide

lemma digitChar_toNat {k : ℕ} (h : k < 10) : (digitChar k).toNat = 48 + k := by
  interval_cases k <;> decide

lemma splitDash_no_dash {a : List Char} (ha : ∀ c ∈ a, c ≠ '-') :
    splitDash a = [a] := by
  induction a with
  | nil => rfl
  | cons c cs ih =>
    have hc : c ≠ '-' := ha c (by simp)
    have ih' := ih (fun x hx => ha x (by simp [hx]))
    simp only [splitDash, if_neg hc, ih']

lemma splitDash_append {a : List Char} (ha : ∀ c ∈ a, c ≠ '-')
    (b : List Char) : splitDash (a ++ '-' :: b) = a :: splitDash b := by
  induction a with
  | nil => simp [splitDash]
  | cons c cs ih =>
    have hc : c ≠ '-' := ha c (by simp)
    have ih' := ih (fun x hx => ha x (by simp [hx]))
    simp only [List.cons_append, splitDash, if_neg hc]
    rw [List.append_eq, ih']

lemma pad2_ne_dash (n : ℕ) : ∀ c ∈ pad2 n, c ≠ '-' := by
  intro c hc
  simp only [pad2, List.mem_cons, List.mem_singleton, List.not_mem_nil,
    or_false] at hc
  rcases hc with h | h <;>
    exact h ▸ digitChar_ne_dash (Nat.mod_lt _ (by norm_num))

lemma pad4_ne_dash (n : ℕ) : ∀ c ∈ pad4 n, c ≠ '-' := by
  intro c hc
  simp only [pad4, List.mem_cons, List.mem_singleton, List.not_mem_nil,
    or_false] at hc
  rcases hc with h | h | h | h <;>
    exact h ▸ digitChar_ne_dash (Nat.mod_lt _ (by norm_num))

lemma digitsUpTo_pad2 (n : ℕ) : digitsUpTo 2 (pad2 n) = true := by
  simp [digitsUpTo, pad2, digitChar_isDigit (Nat.mod_lt _ (by norm_num))]

lemma digitsExact_pad4 (n : ℕ) : digitsExact 4 (pad4 n) = true := by
  simp [digitsExact, pad4, digitChar_isDigit (Nat.mod_lt _ (by norm_num))]

lemma valOf_pad2 {n : ℕ} (h : n < 100) : valOf (pad2 n) = n := by
  simp only [valOf, pad2, List.foldl_cons, List.foldl_nil,
    digitChar_toNat (Nat.mod_lt _ (by norm_num))]
  omega

lemma valOf_pad4 {n : ℕ} (h : n < 10000) : valOf (pad4 n) = n := by
  simp only [valOf, pad4, List.foldl_cons, List.foldl_nil,
    digitChar_toNat (Nat.mod_lt _ (by norm_num))]
  omega

lemma validDate_bounds {y m d : ℕ} (h : validDate y m d = true) :
    1 ≤ y ∧ y ≤ 9999 ∧ 1 ≤ m ∧ m ≤ 12 ∧ 1 ≤ d ∧ d ≤ daysInMonth y m := by
  simpa [validDate, Bool.and_eq_true, decide_eq_true_eq, and_assoc] using h

/-- Claim C7: `normalize_date` returns a calendar date for every input
that is a `YYYY-MM-DD` string (the canonical rendering of any valid
date), a datetime, or a plain date; every string it accepts denotes a
valid calendar date, and unrecognized inputs — among them the
invalid-month string `"2025-13-01"`, the short-year string `"25-1-3"`
(the four-digit `%Y` pattern rejects it) and any non-string non-date
value — are rejected with a format error. -/
theorem normalize_date_spec :
    (∀ y m d : ℕ, validDate y m d = true →
      normalize_date (.str (renderYMD y m d)) = .ok ⟨y, m, d⟩) ∧
    (∀ d : Date, normalize_date (.dtime d) = .ok d) ∧
    (∀ d : Date, normalize_date (.pdate d) = .ok d) ∧
    (∀ (s : String) (y m d : ℕ),
      normalize_date (.str s) = .ok ⟨y, m, d⟩ → validDate y m d = true) ∧
    exceptOk (normalize_date (.str "2025-13-01")) = false ∧
    exceptOk (normalize_date (.str "25-1-3")) = false ∧
    exceptOk (normalize_date .other) = false := by
  refine ⟨?_, fun d => rfl, fun d => rfl, ?_, by decide, by decide, rfl⟩
  · intro y m d hv
    obtain ⟨hy1, hy2, hm1, hm2, hd1, hd2⟩ := validDate_bounds hv
    have hdm : daysInMonth y m ≤ 31 := by
      unfold daysInMonth
      split <;> (try split) <;> simp_all
    have hsplit :
        splitDash (renderYMD y m d).data = [pad4 y, pad2 m, pad2 d] := by
      show splitDash (pad4 y ++ '-' :: (pad2 m ++ '-' :: pad2 d)) = _
      rw [splitDash_append (pad4_ne_dash y),
        splitDash_append (pad2_ne_dash m),
        splitDash_no_dash (pad2_ne_dash d)]
    simp only [normalize_date, hsplit, digitsExact_pad4, digitsUpTo_pad2,
      Bool.and_self, if_true, valOf_pad4 (by omega : y < 10000),
      valOf_pad2 (by omega : m < 100), valOf_pad2 (by omega : d < 100), hv]
  · intro s y m d h
    simp only [normalize_date] at h
    rcases hsp : splitDash s.data with _ | ⟨a, _ | ⟨b, _ | ⟨c, _ | ⟨e, rest⟩⟩⟩⟩ <;>
      rw [hsp] at h <;> dsimp only at h
    · simp at h
    · simp at h
    · simp at h
    · split at h
      · split at h
        · injection h with h'
          injection h' with h1 h2 h3
          subst h1; subst h2; subst h3
          assumption
        · exact absurd h (by simp)
      · exact absurd h (by simp)
    · simp at h

/-- Witness for `normalize_date_spec`: its universally quantified parts
applied to the valid date 2025-01-03 and to the accepted string
`"2025-02-10"`. -/
theorem normalize_date_spec_witness :
    normalize_date (.str (renderYMD 2025 1 3)) = .ok ⟨2025, 1, 3⟩ ∧
    validDate 2025 2 10 = true := by
  refine ⟨normalize_date_spec.1 2025 1 3 (by decide), ?_⟩
  exact normalize_date_spec.2.2.2.1 "2025-02-10" 2025 2 10 (by decide)

/-! ## Helper lemmas: the upsert-by-date operation -/

lemma find?_map_replace {α : Type} (key : α → Date) (d : Date) (r : α)
    (hk : key r = d) (db : List α) :
    (db.map (fun x => if key x = d then r else x)).find?
        (fun x => decide (key x = d)) =
      if db.any (fun x => decide (key x = d)) then some r else none := by
  induction db with
  | nil => rfl
  | cons x xs ih =>
    by_cases h : key x = d
    · simp [h, hk]
    · have hd : decide (key x = d) = false := by simp [h]
      simp only [List.map_cons, if_neg h, List.any_cons, hd, Bool.false_or]
      rw [List.find?_cons_of_neg _ (by simp [h]), ih]

lemma find?_append_of_none {α : Type} {p : α → Bool} {db : List α}
    (h : db.find? p = none) (l : List α) :
    (db ++ l).find? p = l.find? p := by
  rw [List.find?_append, h, Option.none_or]

lemma find?_upsertRow {α : Type} (key : α → Date) (db : List α)
    (d : Date) (r : α) (hk : key r = d) :
    (upsertRow key db d r).find? (fun x => decide (key x = d)) = some r := by
  unfold upsertRow
  by_cases h : db.any (fun x => decide (key x = d)) = true
  · rw [if_pos h, find?_map_replace key d r hk db, if_pos h]
  · rw [if_neg h]
    have hnone : db.find? (fun x => decide (key x = d)) = none := by
      rw [List.find?_eq_none]
      intro x hx
      simp only [List.any_eq_true, decide_eq_true_eq] at h
      simpa using fun hc => h ⟨x, hx, hc⟩
    rw [find?_append_of_none hnone]
    simp [hk]

lemma countP_eq_one_of_nodup {α : Type} (key : α → Date) (d : Date) :
    ∀ db : List α, (db.map key).Nodup →
      db.any (fun x => decide (key x = d)) = true →
      db.countP (fun x => decide (key x = d)) = 1 := by
  intro db
  induction db with
  | nil => simp
  | cons x xs ih =>
    intro hnd hany
    simp only [List.map_cons, List.nodup_cons] at hnd
    by_cases h : key x = d
    · rw [List.countP_cons_of_pos _ _ (by simpa using h)]
      have hzero : xs.countP (fun y => decide (key y = d)) = 0 := by
        rw [List.countP_eq_zero]
        intro y hy
        simp only [decide_eq_true_eq]
        intro hyd
        exact hnd.1 (by rw [← h] at hyd; exact hyd ▸ List.mem_map_of_mem key hy)
      rw [hzero]
    · rw [List.countP_cons_of_neg _ _ (by simpa using h)]
      refine ih hnd.2 ?_
      simpa [h] using hany

lemma countP_upsertRow {α : Type} (key : α → Date) (db : List α)
    (d : Date) (r : α) (hk : key r = d) (hnd : (db.map key).Nodup) :
    (upsertRow key db d r).countP (fun x => decide (key x = d)) = 1 := by
  unfold upsertRow
  by_cases h : db.any (fun x => decide (key x = d)) = true
  · rw [if_pos h]
    have hcomp : ∀ x ∈ db,
        (((fun x => decide (key x = d)) ∘
            fun x => if key x = d then r else x) x = true ↔
          decide (key x = d) = true) := by
      intro x _
      by_cases hx : key x = d <;> simp [hx, hk]
    rw [List.countP_map]
    calc db.countP ((fun x => decide (key x = d)) ∘
          fun x => if key x = d then r else x)
        = db.countP (fun x => decide (key x = d)) :=
          List.countP_congr hcomp
      _ = 1 := countP_eq_one_of_nodup key d db hnd h
  · rw [if_neg h, List.countP_append]
    have hzero : db.countP (fun x => decide (key x = d)) = 0 := by
      rw [List.countP_eq_zero]
      intro y hy
      simp only [List.any_eq_true, decide_eq_true_eq] at h
      simpa using fun hc => h ⟨y, hy, hc⟩
    rw [hzero]
    simp [hk, List.countP_cons]

lemma map_key_upsertRow {α : Type} (key : α → Date) (db : List α)
    (d : Date) (r : α) (hk : key r = d)
    (h : db.any (fun x => decide (key x = d)) = true) :
    (upsertRow key db d r).map key = db.map key := by
  unfold upsertRow
  rw [if_pos h, List.map_map]
  refine List.map_congr_left ?_
  intro x _
  by_cases hx : key x = d <;> simp [hx, hk]

lemma pytrunc_intCast (z : ℤ) : pytrunc ((z : ℤ) : ℚ) = z := by
  simp [pytrunc, Rat.intCast_num, Rat.intCast_den, Int.tdiv_one]

lemma nodup_upsertRow {α : Type} (key : α → Date) (db : List α)
    (d : Date) (r : α) (hk : key r = d) (hnd : (db.map key).Nodup) :
    ((upsertRow key db d r).map key).Nodup := by
  by_cases h : db.any (fun x => decide (key x = d)) = true
  · rw [map_key_upsertRow key db d r hk h]
    exact hnd
  · unfold upsertRow
    rw [if_neg h, List.map_append]
    simp only [List.map_cons, List.map_nil]
    rw [List.nodup_append]
    refine ⟨hnd, List.nodup_singleton _, ?_⟩
    intro a ha
    simp only [List.mem_singleton]
    intro hc
    simp only [List.any_eq_true, decide_eq_true_eq] at h
    obtain ⟨x, hx, hxd⟩ := List.mem_map.mp ha
    exact h ⟨x, hx, by rw [hxd, hc, hk]⟩

/-! ## Claim C1 (daily_net invariant) -/

/-- Counterexample to claim C1 as stated: after
`add_record(d, 0, 1000, 0, 0.5, 0, 0, 0)` the store holds exactly one
record, whose stored `daily_net` is the truncated `999` and therefore
differs from `earnings - cng_expenses - driver_pass_subscription -
indrive_topup = 999.5`. -/
theorem daily_net_not_exact :
    (add_record [] ⟨2025, 1, 1⟩ 0 1000 0 (mkRat 1 2) (mkRat 0 1)
        (mkRat 0 1) (mkRat 0 1)).map (·.daily_net) = [999] ∧
    (add_record [] ⟨2025, 1, 1⟩ 0 1000 0 (mkRat 1 2) (mkRat 0 1)
        (mkRat 0 1) (mkRat 0 1)).all
      (fun r => decide ((r.daily_net : ℚ) =
        (r.earnings : ℚ) - (r.cng_expenses : ℚ) -
          r.driver_pass_subscription - r.indrive_topup)) = false := by
  with_unfolding_all decide

/-- Claim C1, amended: the row persisted for the written date stores
`daily_net` as the toward-zero truncation (`int(...)`) of
`earnings - cng_expenses - driver_pass_subscription - indrive_topup`;
it equals the untruncated formula whenever the subscription and top-up
are integral.  In the bulk importer the formula is evaluated before the
`fillna(0)` pass, so a row with a missing `earnings` or `cng_expenses`
cell stores `daily_net = int(0) = 0` regardless of the other fields. -/
theorem daily_net_truncated :
    (∀ (db : List DailyRecord) (d : Date) (rc e c : ℤ) (s t os oe : ℚ),
      (add_record db d rc e c s t os oe).find?
          (fun r => decide (r.date = d)) =
        some (mkDailyRecord d rc e c s t os oe) ∧
      (mkDailyRecord d rc e c s t os oe).daily_net =
        pytrunc ((e : ℚ) - (c : ℚ) - s - t)) ∧
    (∀ (d : Date) (rc e c m k : ℤ) (os oe : ℚ),
      ((mkDailyRecord d rc e c (m : ℚ) (k : ℚ) os oe).daily_net : ℚ) =
        (e : ℚ) - (c : ℚ) - (m : ℚ) - (k : ℚ)) ∧
    (∀ (r : FilledDailyRow) (dt : Date),
      (mkImportDaily r dt).daily_net = pytrunc r.daily_net) ∧
    (∀ r : RawDailyRow,
      (processDailyRow r).daily_net =
        (match r.earnings, r.cng_expenses with
          | some e, some c =>
            e - c - r.driver_pass_subscription.getD 0 -
              r.indrive_topup.getD 0
          | _, _ => 0)) := by
  refine ⟨?_, ?_, fun r dt => rfl, ?_⟩
  · intro db d rc e c s t os oe
    exact ⟨find?_upsertRow (fun r : DailyRecord => r.date) db d _ rfl, rfl⟩
  · intro d rc e c m k os oe
    have h1 : (e : ℚ) - (c : ℚ) - (m : ℚ) - (k : ℚ) =
        ((e - c - m - k : ℤ) : ℚ) := by push_cast; ring
    show ((pytrunc ((e : ℚ) - (c : ℚ) - (m : ℚ) - (k : ℚ)) : ℤ) : ℚ) = _
    rw [h1, pytrunc_intCast]
  · intro r
    rcases r with ⟨dt, rc, e, c, s, t, os, oe⟩
    rcases e with _ | e <;> rcases c with _ | c <;> rfl

/-! ## Claim C2 (last write wins) -/

/-- Claim C2: on a store with date-unique rows, two successive
`add_record` writes for the same date leave exactly one row for that
date, and that row carries the second write's field values. -/
theorem upsert_last_write_wins (db : List DailyRecord) (d : Date)
    (rc₁ e₁ c₁ : ℤ) (s₁ t₁ os₁ oe₁ : ℚ) (rc₂ e₂ c₂ : ℤ)
    (s₂ t₂ os₂ oe₂ : ℚ)
    (hnd : (db.map (·.date)).Nodup) :
    ((add_record (add_record db d rc₁ e₁ c₁ s₁ t₁ os₁ oe₁)
          d rc₂ e₂ c₂ s₂ t₂ os₂ oe₂).countP
        (fun r => decide (r.date = d)) = 1) ∧
    (add_record (add_record db d rc₁ e₁ c₁ s₁ t₁ os₁ oe₁)
          d rc₂ e₂ c₂ s₂ t₂ os₂ oe₂).find?
        (fun r => decide (r.date = d)) =
      some (mkDailyRecord d rc₂ e₂ c₂ s₂ t₂ os₂ oe₂) := by
  have hnd1 : ((add_record db d rc₁ e₁ c₁ s₁ t₁ os₁ oe₁).map
      (·.date)).Nodup :=
    nodup_upsertRow (fun r : DailyRecord => r.date) db d _ rfl hnd
  exact ⟨countP_upsertRow (fun r : DailyRecord => r.date) _ d _ rfl hnd1,
    find?_upsertRow (fun r : DailyRecord => r.date) _ d _ rfl⟩

/-- Witness for `upsert_last_write_wins`: two concrete writes for
2025-01-01 on the empty store. -/
theorem upsert_last_write_wins_witness :
    ((add_record (add_record [] ⟨2025, 1, 1⟩ 10 1000 200 (mkRat 1 1)
          (mkRat 2 1) (mkRat 0 1) (mkRat 0 1))
          ⟨2025, 1, 1⟩ 12 1500 250 (mkRat 3 1) (mkRat 4 1) (mkRat 5 1)
          (mkRat 6 1)).countP
        (fun r => decide (r.date = (⟨2025, 1, 1⟩ : Date))) = 1) ∧
    (add_record (add_record [] ⟨2025, 1, 1⟩ 10 1000 200 (mkRat 1 1)
          (mkRat 2 1) (mkRat 0 1) (mkRat 0 1))
          ⟨2025, 1, 1⟩ 12 1500 250 (mkRat 3 1) (mkRat 4 1) (mkRat 5 1)
          (mkRat 6 1)).find?
        (fun r => decide (r.date = (⟨2025, 1, 1⟩ : Date))) =
      some (mkDailyRecord ⟨2025, 1, 1⟩ 12 1500 250 (mkRat 3 1)
        (mkRat 4 1) (mkRat 5 1) (mkRat 6 1)) :=
  upsert_last_write_wins [] ⟨2025, 1, 1⟩ 10 1000 200 (mkRat 1 1)
    (mkRat 2 1) (mkRat 0 1) (mkRat 0 1) 12 1500 250 (mkRat 3 1)
    (mkRat 4 1) (mkRat 5 1) (mkRat 6 1) (by simp)

/-! ## Claim C8 (zero odometer stored as unset) -/

/-- Claim C8: both the Upsert Writer (whose persisted row for the
written date is exactly `mkDailyRecord`) and the daily-record importer
store a supplied odometer value of zero as NULL and a positive value
as given. -/
theorem odometer_zero_unset :
    (∀ (db : List DailyRecord) (d : Date) (rc e c : ℤ) (s t os oe : ℚ),
      (add_record db d rc e c s t os oe).find?
          (fun r => decide (r.date = d)) =
        some (mkDailyRecord d rc e c s t os oe)) ∧
    (∀ (d : Date) (rc e c : ℤ) (s t os oe : ℚ),
      (os = 0 → (mkDailyRecord d rc e c s t os oe).odometer_start = none) ∧
      (0 < os → (mkDailyRecord d rc e c s t os oe).odometer_start = some os) ∧
      (oe = 0 → (mkDailyRecord d rc e c s t os oe).odometer_end = none) ∧
      (0 < oe → (mkDailyRecord d rc e c s t os oe).odometer_end = some oe)) ∧
    (∀ (r : FilledDailyRow) (dt : Date),
      (r.odometer_start = 0 → (mkImportDaily r dt).odometer_start = none) ∧
      (0 < r.odometer_start →
        (mkImportDaily r dt).odometer_start = some r.odometer_start) ∧
      (r.odometer_end = 0 → (mkImportDaily r dt).odometer_end = none) ∧
      (0 < r.odometer_end →
        (mkImportDaily r dt).odometer_end = some r.odometer_end)) := by
  refine ⟨?_, ?_, ?_⟩
  · intro db d rc e c s t os oe
    exact find?_upsertRow (fun r : DailyRecord => r.date) db d _ rfl
  · intro d rc e c s t os oe
    refine ⟨fun h => ?_, fun h => ?_, fun h => ?_, fun h => ?_⟩
    · simp [mkDailyRecord, h]
    · simp [mkDailyRecord, h]
    · simp [mkDailyRecord, h]
    · simp [mkDailyRecord, h]
  · intro r dt
    refine ⟨fun h => ?_, fun h => ?_, fun h => ?_, fun h => ?_⟩
    · simp [mkImportDaily, h]
    · simp [mkImportDaily, ne_of_gt h]
    · simp [mkImportDaily, h]
    · simp [mkImportDaily, ne_of_gt h]

/-- Witness for `odometer_zero_unset`: a write with odometer start `0`
and end `5` stores NULL and `5`. -/
theorem odometer_zero_unset_witness :
    (mkDailyRecord ⟨2025, 1, 2⟩ 3 500 100 (mkRat 0 1) (mkRat 0 1) 0
        (mkRat 5 1)).odometer_start = none ∧
    (mkDailyRecord ⟨2025, 1, 2⟩ 3 500 100 (mkRat 0 1) (mkRat 0 1) 0
        (mkRat 5 1)).odometer_end = some (mkRat 5 1) := by
  have h := odometer_zero_unset.2.1 ⟨2025, 1, 2⟩ 3 500 100 (mkRat 0 1)
    (mkRat 0 1) 0 (mkRat 5 1)
  exact ⟨h.1 rfl, h.2.2.2 (by with_unfolding_all decide)⟩

/-! ## Claim C10 (manual all-zero other-expense row is persisted) -/

/-- Claim C10: for a date with no existing `OtherExpense` row, the
manual-entry writer `add_other_expense` persists an all-zero row,
whereas the bulk importer's preprocessing discards a sheet row whose
three numeric fields fill to zero. -/
theorem manual_zero_expense_persisted :
    ∀ (db : List OtherExpense) (d : Date) (months : Option String),
      (∀ x ∈ db, x.date ≠ d) →
      add_other_expense db d 0 0 0 months =
        db ++ [(⟨d, 0, months, 0, 0⟩ : OtherExpense)] ∧
      ∀ rw : RawExpenseRow, rw.expenses.getD 0 = 0 →
        rw.car_emi.getD 0 = 0 → rw.pg_rent.getD 0 = 0 →
        processExpenseSheet [rw] = [] := by
  intro db d months hfresh
  constructor
  · have hany : db.any (fun x => decide (x.date = d)) = false := by
      rw [Bool.eq_false_iff]
      intro hc
      simp only [List.any_eq_true, decide_eq_true_eq] at hc
      obtain ⟨x, hx, hxd⟩ := hc
      exact hfresh x hx hxd
    unfold add_other_expense upsertRow
    rw [hany]
    simp
  · intro rw h1 h2 h3
    simp [processExpenseSheet, fillExpenseRow, h1, h2, h3]

/-- Witness for `manual_zero_expense_persisted`: an all-zero manual
write on the empty store for 2025-03-01 persists one row, while the
importer drops the corresponding all-empty sheet row. -/
theorem manual_zero_expense_persisted_witness :
    add_other_expense [] ⟨2025, 3, 1⟩ 0 0 0 (some "") =
      [(⟨⟨2025, 3, 1⟩, 0, some "", 0, 0⟩ : OtherExpense)] ∧
    processExpenseSheet [⟨.str "2025-03-01", none, some "", none, none⟩] = [] := by
  have h := manual_zero_expense_persisted [] ⟨2025, 3, 1⟩ (some "")
    (by simp)
  exact ⟨h.1, h.2 ⟨.str "2025-03-01", none, some "", none, none⟩ rfl rfl rfl⟩

/-! ## Claim C3 (batch import is atomic) -/

lemma runImport_rollback {ρ σ : Type} (dateOf : ρ → RawDate)
    (key : σ → Date) (mk : ρ → Date → σ) (db0 : List σ)
    (rows : List ρ)
    (hbad : ∃ r ∈ rows, exceptOk (normalize_date (dateOf r)) = false) :
    ∀ (sess : List σ) (a u : ℕ),
      (runImport dateOf key mk db0 rows sess a u).1 = db0 ∧
      ∃ e, (runImport dateOf key mk db0 rows sess a u).2 = .error e := by
  induction rows with
  | nil => simp at hbad
  | cons r rest ih =>
    intro sess a u
    rcases hnd : normalize_date (dateOf r) with e | dt
    · unfold runImport
      rw [hnd]
      exact ⟨rfl, e, rfl⟩
    · have hbad' : ∃ x ∈ rest, exceptOk (normalize_date (dateOf x)) = false := by
        obtain ⟨x, hx, hxe⟩ := hbad
        rcases List.mem_cons.mp hx with hxr | hxr
        · rw [hxr, hnd] at hxe
          simp [exceptOk] at hxe
        · exact ⟨x, hxr, hxe⟩
      have ih' := ih hbad'
      unfold runImport
      rw [hnd]
      dsimp only
      by_cases hany : db0.any (fun x => decide (key x = dt)) = true
      · rw [if_pos hany]
        exact ih' _ a (u + 1)
      · rw [if_neg hany]
        exact ih' _ (a + 1) u

lemma runImport_error_state {ρ σ : Type} (dateOf : ρ → RawDate)
    (key : σ → Date) (mk : ρ → Date → σ) (db0 : List σ) :
    ∀ (rows : List ρ) (sess : List σ) (a u : ℕ) (st : List σ) (e : String),
      runImport dateOf key mk db0 rows sess a u = (st, .error e) →
      st = db0 := by
  intro rows
  induction rows with
  | nil =>
    intro sess a u st e h
    unfold runImport at h
    split at h
    · simp at h
    · exact (congrArg Prod.fst h).symm
  | cons r rest ih =>
    intro sess a u st e h
    unfold runImport at h
    rcases hnd : normalize_date (dateOf r) with er | dt <;>
      rw [hnd] at h <;> dsimp only at h
    · exact (congrArg Prod.fst h).symm
    · split at h
      · exact ih _ _ _ _ _ h
      · exact ih _ _ _ _ _ h

lemma runImport_ok_inv {ρ σ : Type} (dateOf : ρ → RawDate)
    (key : σ → Date) (mk : ρ → Date → σ) (db0 : List σ) :
    ∀ (rows : List ρ) (sess : List σ) (a u : ℕ) (st : List σ)
      (cnt : ℕ × ℕ),
      runImport dateOf key mk db0 rows sess a u = (st, .ok cnt) →
      (∀ r ∈ rows, exceptOk (normalize_date (dateOf r)) = true) ∧
        (st.map key).Nodup := by
  intro rows
  induction rows with
  | nil =>
    intro sess a u st cnt h
    unfold runImport at h
    split at h
    · have hst : sess = st := congrArg Prod.fst h
      refine ⟨by simp, ?_⟩
      rw [← hst]
      assumption
    · simp at h
  | cons r rest ih =>
    intro sess a u st cnt h
    unfold runImport at h
    rcases hnd : normalize_date (dateOf r) with er | dt <;>
      rw [hnd] at h <;> dsimp only at h
    · simp at h
    · split at h <;>
      · obtain ⟨hrest, hnodup⟩ := ih _ _ _ _ _ h
        refine ⟨?_, hnodup⟩
        intro x hx
        rcases List.mem_cons.mp hx with hxr | hxr
        · rw [hxr, hnd]; rfl
        · exact hrest x hxr

lemma runImport_success {ρ σ : Type} (dateOf : ρ → RawDate)
    (key : σ → Date) (mk : ρ → Date → σ)
    (hmk : ∀ (r : ρ) (dt : Date), key (mk r dt) = dt) (db0 : List σ) :
    ∀ (rows : List ρ) (sess : List σ) (a u : ℕ),
      (∀ r ∈ rows, exceptOk (normalize_date (dateOf r)) = true) →
      rows.Pairwise
        (fun r r' =>
          normalize_date (dateOf r) ≠ normalize_date (dateOf r')) →
      (sess.map key).Nodup →
      (∀ r ∈ rows, ∀ dt, normalize_date (dateOf r) = .ok dt →
        db0.any (fun x => decide (key x = dt)) = false →
        dt ∉ sess.map key) →
      ∃ st cnt, runImport dateOf key mk db0 rows sess a u =
        (st, .ok cnt) := by
  intro rows
  induction rows with
  | nil =>
    intro sess a u _ _ hsn _
    refine ⟨sess, (a, u), ?_⟩
    unfold runImport
    rw [if_pos hsn]
  | cons r rest ih =>
    intro sess a u hok hpw hsn hfresh
    rcases hnd : normalize_date (dateOf r) with er | dt
    · have hr := hok r (by simp)
      rw [hnd] at hr
      simp [exceptOk] at hr
    · obtain ⟨hhead, htail⟩ := List.pairwise_cons.mp hpw
      have hok' : ∀ x ∈ rest, exceptOk (normalize_date (dateOf x)) = true :=
        fun x hx => hok x (by simp [hx])
      unfold runImport
      rw [hnd]
      dsimp only
      by_cases hany : db0.any (fun x => decide (key x = dt)) = true
      · rw [if_pos hany]
        have hkeys : ((sess.map
            (fun x => if key x = dt then mk r dt else x)).map key) =
              sess.map key := by
          rw [List.map_map]
          refine List.map_congr_left ?_
          intro x _
          by_cases hx : key x = dt <;> simp [hx, hmk]
        refine ih _ a (u + 1) hok' htail ?_ ?_
        · rw [hkeys]; exact hsn
        · intro x hx dt' hdt' hfr
          rw [hkeys]
          exact hfresh x (by simp [hx]) dt' hdt' hfr
      · rw [if_neg hany]
        have hdtni : dt ∉ sess.map key :=
          hfresh r (by simp) dt hnd (Bool.eq_false_iff.mpr hany)
        have hkeys2 : ((sess ++ [mk r dt]).map key) =
            sess.map key ++ [dt] := by
          rw [List.map_append]
          simp [hmk]
        refine ih _ (a + 1) u hok' htail ?_ ?_
        · rw [hkeys2, List.nodup_append]
          refine ⟨hsn, List.nodup_singleton _, ?_⟩
          intro x hx
          simp only [List.mem_singleton]
          intro hc
          exact hdtni (hc ▸ hx)
        · intro x hx dt' hdt' hfr
          rw [hkeys2]
          intro hmem
          rcases List.mem_append.mp hmem with hin | hin
          · exact hfresh x (by simp [hx]) dt' hdt' hfr hin
          · simp only [List.mem_singleton] at hin
            have hne := hhead x hx
            rw [hnd, hdt'] at hne
            exact hne (by rw [hin])

/-- Claim C3: a bulk-import invocation is atomic, for both
`import_daily_records` and `import_other_expenses`.  A batch
containing a row whose date is rejected rolls back to the exact
pre-call store and propagates the error; more generally every erroring
invocation — including a commit-time UNIQUE-constraint failure from
two inserts for the same fresh date, which the `no_autoflush` lookup
cannot see coming — leaves the store in its pre-call state.
`(added, updated)` counts are reported only on full success: a
successful invocation had every row's date normalize and commits a
date-unique table, and a batch of rows with pairwise distinct
normalized dates on a date-unique store does succeed with counts. -/
theorem import_atomic (rows : List FilledDailyRow)
    (db : List DailyRecord) (erows : List FilledExpenseRow)
    (edb : List OtherExpense) :
    ((∃ r ∈ rows, exceptOk (normalize_date r.date) = false) →
      (import_daily_records rows db).1 = db ∧
      ∃ e, (import_daily_records rows db).2 = .error e) ∧
    (∀ st e, import_daily_records rows db = (st, .error e) → st = db) ∧
    (∀ st cnt, import_daily_records rows db = (st, .ok cnt) →
      (∀ r ∈ rows, exceptOk (normalize_date r.date) = true) ∧
      (st.map (·.date)).Nodup) ∧
    ((∀ r ∈ rows, exceptOk (normalize_date r.date) = true) →
      rows.Pairwise
        (fun r r' => normalize_date r.date ≠ normalize_date r'.date) →
      (db.map (·.date)).Nodup →
      ∃ st cnt, import_daily_records rows db = (st, .ok cnt)) ∧
    ((∃ r ∈ erows, exceptOk (normalize_date r.date) = false) →
      (import_other_expenses erows edb).1 = edb ∧
      ∃ e, (import_other_expenses erows edb).2 = .error e) ∧
    (∀ st e, import_other_expenses erows edb = (st, .error e) →
      st = edb) ∧
    (∀ st cnt, import_other_expenses erows edb = (st, .ok cnt) →
      (∀ r ∈ erows, exceptOk (normalize_date r.date) = true) ∧
      (st.map (·.date)).Nodup) ∧
    ((∀ r ∈ erows, exceptOk (normalize_date r.date) = true) →
      erows.Pairwise
        (fun r r' => normalize_date r.date ≠ normalize_date r'.date) →
      (edb.map (·.date)).Nodup →
      ∃ st cnt, import_other_expenses erows edb = (st, .ok cnt)) := by
  have hfreshD : ∀ (l : List DailyRecord), ∀ dt : Date,
      l.any (fun x => decide (x.date = dt)) = false →
      dt ∉ l.map (fun x : DailyRecord => x.date) := by
    intro l dt hany hmem
    obtain ⟨x, hx, hxd⟩ := List.mem_map.mp hmem
    have : l.any (fun x => decide (x.date = dt)) = true :=
      List.any_eq_true.mpr ⟨x, hx, by simp [hxd]⟩
    rw [hany] at this
    exact Bool.false_ne_true this
  have hfreshE : ∀ (l : List OtherExpense), ∀ dt : Date,
      l.any (fun x => decide (x.date = dt)) = false →
      dt ∉ l.map (fun x : OtherExpense => x.date) := by
    intro l dt hany hmem
    obtain ⟨x, hx, hxd⟩ := List.mem_map.mp hmem
    have : l.any (fun x => decide (x.date = dt)) = true :=
      List.any_eq_true.mpr ⟨x, hx, by simp [hxd]⟩
    rw [hany] at this
    exact Bool.false_ne_true this
  refine ⟨fun hbad => ?_, fun st e h => ?_, fun st cnt h => ?_,
    fun hok hpw hnd => ?_, fun hbad => ?_, fun st e h => ?_,
    fun st cnt h => ?_, fun hok hpw hnd => ?_⟩
  · exact runImport_rollback (fun r : FilledDailyRow => r.date)
      (fun x : DailyRecord => x.date) mkImportDaily db rows hbad db 0 0
  · exact runImport_error_state (fun r : FilledDailyRow => r.date)
      (fun x : DailyRecord => x.date) mkImportDaily db rows db 0 0 st e h
  · exact runImport_ok_inv (fun r : FilledDailyRow => r.date)
      (fun x : DailyRecord => x.date) mkImportDaily db rows db 0 0 st cnt h
  · exact runImport_success (fun r : FilledDailyRow => r.date)
      (fun x : DailyRecord => x.date) mkImportDaily (fun r dt => rfl)
      db rows db 0 0 hok hpw hnd
      (fun r _ dt _ hany => hfreshD db dt hany)
  · exact runImport_rollback (fun r : FilledExpenseRow => r.date)
      (fun x : OtherExpense => x.date) mkImportExpense edb erows hbad
      edb 0 0
  · exact runImport_error_state (fun r : FilledExpenseRow => r.date)
      (fun x : OtherExpense => x.date) mkImportExpense edb erows edb 0 0
      st e h
  · exact runImport_ok_inv (fun r : FilledExpenseRow => r.date)
      (fun x : OtherExpense => x.date) mkImportExpense edb erows edb 0 0
      st cnt h
  · exact runImport_success (fun r : FilledExpenseRow => r.date)
      (fun x : OtherExpense => x.date) mkImportExpense (fun r dt => rfl)
      edb erows edb 0 0 hok hpw hnd
      (fun r _ dt _ hany => hfreshE edb dt hany)

set_option maxRecDepth 40000 in
/-- Witness for `import_atomic`: a daily batch containing the
invalid-month date `"2025-13-01"` rolls back on a nonempty store; a
one-row valid daily batch on that store succeeds with counts; and a
batch of two inserts for the same fresh date — invisible to each other
under `no_autoflush` — fails the UNIQUE constraint at commit and
leaves the store untouched. -/
theorem import_atomic_witness :
    ((import_daily_records
        [⟨.str "2025-13-01", 0, 0, 0, 0, 0, 0, 0, 0⟩]
        [mkDailyRecord ⟨2025, 1, 1⟩ 1 100 0 (mkRat 0 1) (mkRat 0 1)
          (mkRat 0 1) (mkRat 0 1)]).1 =
      [mkDailyRecord ⟨2025, 1, 1⟩ 1 100 0 (mkRat 0 1) (mkRat 0 1)
        (mkRat 0 1) (mkRat 0 1)] ∧
      ∃ e, (import_daily_records
        [⟨.str "2025-13-01", 0, 0, 0, 0, 0, 0, 0, 0⟩]
        [mkDailyRecord ⟨2025, 1, 1⟩ 1 100 0 (mkRat 0 1) (mkRat 0 1)
          (mkRat 0 1) (mkRat 0 1)]).2 = .error e) ∧
    (∃ st cnt, import_daily_records
        [⟨.pdate ⟨2025, 1, 6⟩, mkRat 2 1, mkRat 300 1, mkRat 50 1,
          mkRat 0 1, mkRat 0 1, mkRat 0 1, mkRat 0 1, mkRat 250 1⟩]
        [mkDailyRecord ⟨2025, 1, 1⟩ 1 100 0 (mkRat 0 1) (mkRat 0 1)
          (mkRat 0 1) (mkRat 0 1)] = (st, .ok cnt)) ∧
    import_daily_records
        [⟨.pdate ⟨2025, 1, 5⟩, mkRat 1 1, mkRat 100 1, mkRat 0 1,
          mkRat 0 1, mkRat 0 1, mkRat 0 1, mkRat 0 1, mkRat 100 1⟩,
         ⟨.pdate ⟨2025, 1, 5⟩, mkRat 2 1, mkRat 200 1, mkRat 0 1,
          mkRat 0 1, mkRat 0 1, mkRat 0 1, mkRat 0 1, mkRat 200 1⟩]
        [mkDailyRecord ⟨2025, 1, 1⟩ 1 100 0 (mkRat 0 1) (mkRat 0 1)
          (mkRat 0 1) (mkRat 0 1)] =
      ([mkDailyRecord ⟨2025, 1, 1⟩ 1 100 0 (mkRat 0 1) (mkRat 0 1)
          (mkRat 0 1) (mkRat 0 1)],
        .error "UNIQUE constraint failed") := by
  have h := import_atomic
    [⟨.str "2025-13-01", 0, 0, 0, 0, 0, 0, 0, 0⟩]
    [mkDailyRecord ⟨2025, 1, 1⟩ 1 100 0 (mkRat 0 1) (mkRat 0 1)
      (mkRat 0 1) (mkRat 0 1)] [] []
  have h2 := import_atomic
    [⟨.pdate ⟨2025, 1, 6⟩, mkRat 2 1, mkRat 300 1, mkRat 50 1,
      mkRat 0 1, mkRat 0 1, mkRat 0 1, mkRat 0 1, mkRat 250 1⟩]
    [mkDailyRecord ⟨2025, 1, 1⟩ 1 100 0 (mkRat 0 1) (mkRat 0 1)
      (mkRat 0 1) (mkRat 0 1)] [] []
  refine ⟨h.1 ⟨⟨.str "2025-13-01", 0, 0, 0, 0, 0, 0, 0, 0⟩,
      by simp, by decide⟩,
    h2.2.2.2.1 (by intro r hr; simp at hr; rw [hr]; rfl)
      (by simp)
      (by simp), ?_⟩
  with_unfolding_all decide

/-! ## Claim C4 (profit margin at zero earnings) -/

/-- Claim C4 evaluated on the code: for a zero-earnings row the
`fillna(0)` only repairs the `0/0` (NaN) case; a nonzero `daily_net`
over zero earnings produces a signed infinity, not `0`.  Rows with
nonzero earnings get the exact `daily_net / earnings * 100`. -/
theorem profit_margin_eval :
    profit_margin (-100) 0 = .ninf ∧
    profit_margin 100 0 = .pinf ∧
    profit_margin 0 0 = .val 0 ∧
    profit_margin 50 200 = .val (mkRat 25 1) := by
  with_unfolding_all decide

/-! ## Claim C5 (monthly rollup net profit) -/

set_option maxRecDepth 10000 in
/-- Counterexample to claim C5 as stated: the store reachable by one
`add_record` write for January 2025 (with subscription `0.5`) together
with a single February `OtherExpense` row.  January has no
`OtherExpense` rows, yet its rollup net profit is `earnings - total
expenses = 999.5`, not the summed `daily_net = 999`. -/
theorem monthly_net_profit_cex :
    add_record [] ⟨2025, 1, 1⟩ 0 1000 0 (mkRat 1 2) (mkRat 0 1)
        (mkRat 0 1) (mkRat 0 1) =
      [⟨⟨2025, 1, 1⟩, 0, 1000, 0, mkRat 1 2, mkRat 0 1, none, none, 999⟩] ∧
    (expsIn [⟨⟨2025, 2, 5⟩, mkRat 100 1, none, mkRat 0 1, mkRat 0 1⟩]
        (2025, 1)).isEmpty = true ∧
    ¬ net_profit
        [⟨⟨2025, 1, 1⟩, 0, 1000, 0, mkRat 1 2, mkRat 0 1, none, none, 999⟩]
        [⟨⟨2025, 2, 5⟩, mkRat 100 1, none, mkRat 0 1, mkRat 0 1⟩]
        (2025, 1) =
      (monthDailyNet
        [⟨⟨2025, 1, 1⟩, 0, 1000, 0, mkRat 1 2, mkRat 0 1, none, none, 999⟩]
        (2025, 1) : ℚ) := by
  with_unfolding_all decide

/-- Claim C5, amended: the net-profit branch is on whether the whole
`OtherExpense` table is empty, not per month.  When any expense rows
exist, every month in the selection gets `net profit = summed earnings
- (operational expenses + that month's car_emi + pg_rent + misc
expenses)` — the per-month expense sums being `0` for months with no
expense rows; in particular this covers every month that does have
expense rows, as the original claim stated.  Net profit equals the
summed `daily_net` only when the expense table is entirely empty. -/
theorem monthly_net_profit_branch (rows : List DailyRecord)
    (exps : List OtherExpense) (ym : ℕ × ℕ) :
    (exps ≠ [] → net_profit rows exps ym =
      (monthEarnings rows ym : ℚ) -
        (monthOps rows ym + monthEmi exps ym + monthRent exps ym +
          monthMisc exps ym)) ∧
    ((∃ x ∈ exps, monthOf x.date = ym) → net_profit rows exps ym =
      (monthEarnings rows ym : ℚ) -
        (monthOps rows ym + monthEmi exps ym + monthRent exps ym +
          monthMisc exps ym)) ∧
    (exps = [] → net_profit rows exps ym = (monthDailyNet rows ym : ℚ)) := by
  refine ⟨fun h => ?_, fun h => ?_, fun h => ?_⟩
  · rw [net_profit, if_neg (by simpa [List.isEmpty_iff] using h)]
  · obtain ⟨x, hx, _⟩ := h
    rw [net_profit, if_neg (by simp [List.isEmpty_iff, List.ne_nil_of_mem hx])]
  · rw [net_profit, if_pos (by simp [h])]

/-- Witness for `monthly_net_profit_branch`: the concrete two-month
store of the counterexample (nonempty expense table) and the empty
expense table. -/
theorem monthly_net_profit_branch_witness :
    net_profit
        [⟨⟨2025, 1, 1⟩, 0, 1000, 0, mkRat 1 2, mkRat 0 1, none, none, 999⟩]
        [⟨⟨2025, 2, 5⟩, mkRat 100 1, none, mkRat 0 1, mkRat 0 1⟩]
        (2025, 1) =
      (monthEarnings
        [⟨⟨2025, 1, 1⟩, 0, 1000, 0, mkRat 1 2, mkRat 0 1, none, none, 999⟩]
        (2025, 1) : ℚ) -
        (monthOps
          [⟨⟨2025, 1, 1⟩, 0, 1000, 0, mkRat 1 2, mkRat 0 1, none, none, 999⟩]
          (2025, 1) +
         monthEmi [⟨⟨2025, 2, 5⟩, mkRat 100 1, none, mkRat 0 1, mkRat 0 1⟩]
          (2025, 1) +
         monthRent [⟨⟨2025, 2, 5⟩, mkRat 100 1, none, mkRat 0 1, mkRat 0 1⟩]
          (2025, 1) +
         monthMisc [⟨⟨2025, 2, 5⟩, mkRat 100 1, none, mkRat 0 1, mkRat 0 1⟩]
          (2025, 1)) ∧
    net_profit
        [⟨⟨2025, 1, 1⟩, 0, 1000, 0, mkRat 1 2, mkRat 0 1, none, none, 999⟩]
        [] (2025, 1) =
      (monthDailyNet
        [⟨⟨2025, 1, 1⟩, 0, 1000, 0, mkRat 1 2, mkRat 0 1, none, none, 999⟩]
        (2025, 1) : ℚ) :=
  ⟨(monthly_net_profit_branch _ _ _).1 (by simp),
   (monthly_net_profit_branch _ _ _).2.2 rfl⟩

/-! ## Claim C6 (average earnings per ride) -/

/-- Claim C6: `avg_per_ride` is `total earnings / total rides` when the
total ride count is positive and `0` when it is zero, raising no
division error. -/
theorem avg_per_ride_spec (rows : List DailyRecord) :
    (0 < totalRides rows →
      avg_per_ride rows = (totalEarnings rows : ℚ) / (totalRides rows : ℚ)) ∧
    (totalRides rows = 0 → avg_per_ride rows = 0) := by
  constructor
  · intro h
    rw [avg_per_ride, if_pos h]
  · intro h
    rw [avg_per_ride, if_neg (by simp [h])]

/-- Witness for `avg_per_ride_spec`: a one-row store with 4 rides and
the empty store. -/
theorem avg_per_ride_spec_witness :
    avg_per_ride
        [⟨⟨2025, 1, 1⟩, 4, 1000, 0, mkRat 0 1, mkRat 0 1, none, none, 1000⟩] =
      ((totalEarnings
        [⟨⟨2025, 1, 1⟩, 4, 1000, 0, mkRat 0 1, mkRat 0 1, none, none, 1000⟩] : ℚ) /
       (totalRides
        [⟨⟨2025, 1, 1⟩, 4, 1000, 0, mkRat 0 1, mkRat 0 1, none, none, 1000⟩] : ℚ)) ∧
    avg_per_ride [] = 0 :=
  ⟨(avg_per_ride_spec _).1 (by decide), (avg_per_ride_spec []).2 rfl⟩

/-! ## Claim C9 (all-zero other-expense sheet rows are discarded) -/

/-- Claim C9: a filled row survives the other-expenses sheet filter
exactly when it comes from a raw row of the sheet and at least one of
`expenses`, `car_emi`, `pg_rent` is nonzero after the zero-fill; rows
with all three zero are discarded before the upsert loop. -/
theorem expense_sheet_filter (rows : List RawExpenseRow)
    (x : FilledExpenseRow) :
    x ∈ processExpenseSheet rows ↔
      (∃ r ∈ rows, fillExpenseRow r = x) ∧
        (x.expenses ≠ 0 ∨ x.car_emi ≠ 0 ∨ x.pg_rent ≠ 0) := by
  simp [processExpenseSheet, List.mem_filter, List.mem_map,
    decide_eq_true_eq]

end CarBiz
